import Mathlib

/-!
Verification of the command-chain interpreter in `make_platform_utils.py`.

Python strings are modelled as `List Char` (`Str`). The modelled character
set is ASCII: Unicode-specific behaviour of `str.strip`, `str.lower` and
`str.splitlines` (exotic line boundaries such as `\x85`) is outside the
modelled alphabet, as are underscore digit groups in `int()` literals.
External collaborators of the core (the `re` regex engine, `float`/`int`
literal parsing, f-string number formatting, the filesystem and process
primitives) are passed in as explicit oracle functions, so every theorem
quantifies over their behaviour; the control flow around them is translated
from the source.
-/

set_option maxRecDepth 4000

abbrev Str := List Char

instance {e a : Type} [DecidableEq e] [DecidableEq a] : DecidableEq (Except e a) :=
  fun x y =>
    match x, y with
    | .ok v, .ok w => if h : v = w then isTrue (by rw [h]) else isFalse (by simp [h])
    | .error v, .error w => if h : v = w then isTrue (by rw [h]) else isFalse (by simp [h])
    | .ok _, .error _ => isFalse (by simp)
    | .error _, .ok _ => isFalse (by simp)

/-- Shorthand turning a Lean string literal into the `List Char` model. -/
def s (x : String) : Str := x.data

/-- Boolean prefix test (Python `str.startswith`). -/
def isPre : Str → Str → Bool
  | [], _ => true
  | _ :: _, [] => false
  | a :: as, b :: bs => a = b && isPre as bs

/-- Boolean suffix test (Python `str.endswith`). -/
def isSuf (suf l : Str) : Bool := isPre suf.reverse l.reverse

/-- Source `removeprefix` (lines 18-22): drop `pre` when it is a prefix. -/
def cutPre (l pre : Str) : Str :=
  if isPre pre l then l.drop pre.length else l

/-- Source `removesuffix` (lines 23-27): `string[:-len(suffix)]` when the
suffix matches.  For the empty suffix Python's `string[:-0]` is the empty
string; the source never calls it that way but the model keeps the quirk. -/
def cutSuf (l suf : Str) : Str :=
  if isSuf suf l then
    (if suf = [] then [] else l.take (l.length - suf.length))
  else l

/-- Characters stripped by Python `str.strip()` (ASCII whitespace). -/
def isPySpace (c : Char) : Bool :=
  c = ' ' || c = '\t' || c = '\n' || c = '\r' ||
  c = Char.ofNat 11 || c = Char.ofNat 12

/-- Python `str.strip()`. -/
def pyStrip (l : Str) : Str :=
  ((l.dropWhile isPySpace).reverse.dropWhile isPySpace).reverse

/-- Fuel-driven worker for `pyReplace`; the fuel is an upper bound on the
number of characters still to be scanned. -/
def pyReplaceGo (pat rep : Str) : Nat → Str → Str
  | _, [] => []
  | 0, l => l
  | fuel + 1, c :: l =>
    if pat ≠ [] ∧ isPre pat (c :: l) then
      rep ++ pyReplaceGo pat rep fuel ((c :: l).drop pat.length)
    else
      c :: pyReplaceGo pat rep fuel l

/-- Python `str.replace(pat, rep)`: left-to-right, non-overlapping.
The source only ever calls it with a non-empty pattern. -/
def pyReplace (pat rep l : Str) : Str := pyReplaceGo pat rep l.length l

/-- Python `str.splitlines()` restricted to the `\n`, `\r`, `\r\n`
line boundaries (the only ones the program's buffers contain). -/
def pySplitlinesGo : Str → Str → List Str
  | [], cur => if cur = [] then [] else [cur.reverse]
  | '\r' :: '\n' :: cs, cur => cur.reverse :: pySplitlinesGo cs []
  | '\n' :: cs, cur => cur.reverse :: pySplitlinesGo cs []
  | '\r' :: cs, cur => cur.reverse :: pySplitlinesGo cs []
  | c :: cs, cur => pySplitlinesGo cs (c :: cur)

/-- Python `str.splitlines()` on the buffer. -/
def pySplitlines (l : Str) : List Str :=
  match l with
  | [] => []
  | _ => pySplitlinesGo l []

/-- Python `"\n".join(lines)`. -/
def joinNL (ls : List Str) : Str := List.intercalate ['\n'] ls

/-- Python `str.split(sep)` for a one-character separator (no run merging,
empty pieces preserved, `"".split(sep) == [""]`). -/
def pySplitChGo (sep : Char) : Str → Str → List Str
  | [], cur => [cur.reverse]
  | c :: cs, cur =>
    if c = sep then cur.reverse :: pySplitChGo sep cs []
    else pySplitChGo sep cs (c :: cur)

/-- Python `str.split(sep)` for a one-character separator. -/
def pySplitCh (sep : Char) (l : Str) : List Str := pySplitChGo sep l []

/-- Python `list.index`: position of the first occurrence. -/
def listIndexOf (a : Str) : List Str → Nat
  | [] => 0
  | x :: xs => if x = a then 0 else listIndexOf a xs + 1

/-- ASCII letter test, the `[a-zA-Z]` character class of the path regexes. -/
def isAsciiLetter (c : Char) : Bool :=
  ('a' ≤ c && c ≤ 'z') || ('A' ≤ c && c ≤ 'Z')

/-- Python `str.lower()` on one ASCII character. -/
def pyLowerChar (c : Char) : Char :=
  if 'A' ≤ c ∧ c ≤ 'Z' then Char.ofNat (c.toNat + 32) else c

/-- Python `str.lower()` (ASCII). -/
def strLower (l : Str) : Str := l.map pyLowerChar

/-- Python string comparison (code-point lexicographic), as a Boolean `≤`. -/
def strLeB : Str → Str → Bool
  | [], _ => true
  | _ :: _, [] => false
  | a :: as, b :: bs => if a = b then strLeB as bs else decide (a < b)

/-- Python `int(str)` for plain decimal literals: optional surrounding
whitespace, optional sign, a non-empty digit run. -/
def digitsToNat : Str → Option Nat
  | [] => none
  | ds =>
    if ds.all (fun c => c.isDigit) then
      some (ds.foldl (fun n c => n * 10 + (c.toNat - 48)) 0)
    else none

/-- Python `int(str)` (decimal, underscore grouping not modelled). -/
def pyIntDefault (x : Str) : Option Int :=
  match pyStrip x with
  | '+' :: ds => (digitsToNat ds).map Int.ofNat
  | '-' :: ds => (digitsToNat ds).map fun n => -(n : Int)
  | ds => (digitsToNat ds).map Int.ofNat

/-- Python list indexing with negative-index semantics; `none` models
`IndexError`. -/
def pyIndex (l : List Str) (i : Int) : Option Str :=
  let j : Int := if 0 ≤ i then i else (l.length : Int) + i
  if 0 ≤ j then l.get? j.toNat else none

example : pySplitlines (s "a\nb\n") = [s "a", s "b"] := by decide
example : pySplitlines (s "") = [] := by decide
example : pySplitlines (s "\n") = [s ""] := by decide
example : pyReplace (s "//") (s "/") (s "a//b///c") = s "a/b//c" := by decide
example : cutSuf (s "abc/") (s "/") = s "abc" := by decide
example : pyIntDefault (s " 42 ") = some 42 := by decide
example : pyIntDefault (s "abc") = none := by decide
example : pySplitCh ',' (s "a,,b") = [s "a", s "", s "b"] := by decide
example : pyStrip (s "  a b ") = s "a b" := by decide

/-! ## Command registry and arity resolution (source lines 70-85, 938-1005) -/

/-- One entry of the command registry, mirroring `CommandProcessor.Command`.
`convert` records whether a per-parameter converter is attached; the only
converter in the source is `lambda x: int(x)` on `--include`/`--exclude`,
so the converter itself is modelled by an `Str → Option Int` oracle. -/
structure Cmd where
  long : Str
  short : Option Str
  param_names : List Str
  param_count : Int
  param_until : Option Str
  convert : Bool
  deriving DecidableEq, Repr

/-- `Command.__init__` (source lines 72-81): resolve the effective
`param_count` from the explicitly given count, the terminator, and the
parameter-name list. -/
def mkCmd (long : Str) (short : Option Str) (names : Option (List Str))
    (count : Int) (until_ : Option Str) (conv : Bool) : Cmd :=
  { long := long
    short := short
    param_names := match names with | some ns => ns | none => []
    param_count :=
      if 0 ≤ count then count
      else match until_ with
        | some _ => -1
        | none => match names with
          | some ns => (ns.length : Int)
          | none => 0
    param_until := until_
    convert := conv }

/-- The command registry in dispatch order: the entries of
`CommandProcessor.__dict__` that carry `command_attrs`, in class-body
order.  The methods `platform_exec` and `platform_open` are each defined
twice in the source; the second definition overwrites the first in the
class dict while keeping the first definition's position, so each appears
once here (flags and arity of both definitions coincide). -/
def registry : List Cmd :=
  [ mkCmd (s "--env") none (some [s "KEY=VALUE"]) (-1) none false
  , mkCmd (s "--stdout") none (some [s "MODE|PATH"]) (-1) none false
  , mkCmd (s "--stderr") none (some [s "MODE|PATH"]) (-1) none false
  , mkCmd (s "--stoponerror") none (some [s "MODE"]) (-1) none false
  , mkCmd (s "--help") (some (s "-h")) none (-1) none false
  , mkCmd (s "--platform-exec") none none (-1) none false
  , mkCmd (s "--platform-open") none none (-1) none false
  , mkCmd (s "--exec") (some (s "-e")) (some [s "COMMAND", s "ARGS..."]) (-1) (some (s ";")) false
  , mkCmd (s "--in") (some (s "-i")) (some [s "STR"]) (-1) none false
  , mkCmd (s "--read") (some (s "-r")) (some [s "PATH"]) (-1) none false
  , mkCmd (s "--platform") (some (s "-p")) none (-1) none false
  , mkCmd (s "--cygwin") (some (s "-c")) none (-1) none false
  , mkCmd (s "--mingw") (some (s "-m")) none (-1) none false
  , mkCmd (s "--timestamp") none none (-1) none false
  , mkCmd (s "--out") (some (s "-o")) (some [s "PATH"]) (-1) none false
  , mkCmd (s "--append") (some (s "-a")) (some [s "PATH"]) (-1) none false
  , mkCmd (s "--print") none none (-1) none false
  , mkCmd (s "--foreach") none (some [s "COMMAND", s "ARGS..."]) (-1) (some (s ";")) false
  , mkCmd (s "--include") none (some [s "FROM", s "TO"]) (-1) none true
  , mkCmd (s "--exclude") none (some [s "FROM", s "TO"]) (-1) none true
  , mkCmd (s "--lower") (some (s "-l")) none (-1) none false
  , mkCmd (s "--upper") (some (s "-u")) none (-1) none false
  , mkCmd (s "--filter") (some (s "-f")) (some [s "REGEX"]) (-1) none false
  , mkCmd (s "--filter-out") none (some [s "REGEX"]) (-1) none false
  , mkCmd (s "--noempty") none none (-1) none false
  , mkCmd (s "--sub") (some (s "-s")) (some [s "REGEX", s "SUB"]) 2 none false
  , mkCmd (s "--sort") none (some [s "FLAGS"]) (-1) none false
  , mkCmd (s "--unique") none none (-1) none false
  , mkCmd (s "--reverse") none none (-1) none false
  , mkCmd (s "--first") none none (-1) none false
  , mkCmd (s "--last") none none (-1) none false
  , mkCmd (s "--sum") none (some [s "FLAGS"]) (-1) none false
  , mkCmd (s "--count") none none (-1) none false
  , mkCmd (s "--env-path") none none (-1) none false
  , mkCmd (s "--platform-path") none none (-1) none false
  , mkCmd (s "--shell-list") none none (-1) none false
  , mkCmd (s "--dirname") none none (-1) none false
  , mkCmd (s "--basename") none none (-1) none false
  , mkCmd (s "--touch") none (some [s "PATH"]) (-1) none false
  , mkCmd (s "--symlink") none (some [s "TARGET", s "LINK"]) (-1) none false
  , mkCmd (s "--ensure-dir") none (some [s "PATH"]) (-1) none false
  , mkCmd (s "--ensure-dirs") none (some [s "PATH"]) (-1) none false
  , mkCmd (s "--glob") none none (-1) none false
  , mkCmd (s "--exists") none none (-1) none false
  , mkCmd (s "--print-valid") none (some [s "FLAGS"]) (-1) none false ]

/-- Outcome of `CommandProcessor.parse_command` on one spec: no match
(`False`), a match leaving the given remaining argument list (`True`,
with the flag token consumed or its `=value` spliced back), or a raised
`ParameterCountError`. -/
inductive PCmdRes where
  | noMatch
  | countErr
  | matched (rest : List Str)
  deriving DecidableEq, Repr

/-- The flag-matching half of `CommandProcessor.parse_command` (source
lines 939-952): the long flag is tried first — an exact match consumes
the token, `--flag=value` splices `value` back as the new head, any other
continuation rejects (no false prefix matches); the short flag is
compared exactly otherwise.  Returns the remaining argument list on a
match. -/
def flagConsume (c : Cmd) (a : Str) (rest : List Str) : Option (List Str) :=
  if isPre c.long a then
    let r := cutPre a c.long
    if isPre (s "=") r then some (cutPre r (s "=") :: rest)
    else if r = [] then some rest
    else none
  else if c.short = some a then some rest
  else none

/-- `CommandProcessor.parse_command` (source lines 938-956): flag matching
followed by the arity guard — after consuming the flag, fewer than
`param_count` remaining tokens raise `ParameterCountError`. -/
def parse_command (c : Cmd) (args : List Str) : PCmdRes :=
  match args with
  | [] => .noMatch
  | a :: rest =>
    match flagConsume c a rest with
    | none => .noMatch
    | some args' =>
      if (args'.length : Int) < c.param_count then .countErr else .matched args'

/-- Exceptions that can escape the parameter phase: the source's
`ParameterCountError` (caught by `parse_commands`) and Python's
`ValueError` from the `int` converter (not caught anywhere). -/
inductive PErr where
  | paramCount
  | valueErr
  deriving DecidableEq, Repr

/-- Parameters handed to a handler: raw strings, or the integer list
produced by the `param_convert` converter. -/
inductive PParams where
  | strs (l : List Str)
  | ints (l : List Int)
  deriving DecidableEq, Repr

/-- Apply `param_convert` to every captured token (`[command.param_convert(arg)
for arg in args]`); the first failing conversion raises `ValueError`. -/
def convertAll (pyInt : Str → Option Int) : List Str → Option (List Int)
  | [] => some []
  | a :: as => match pyInt a with
    | none => none
    | some n => (convertAll pyInt as).map fun ns => n :: ns

/-- `CommandProcessor.parse_command_params` (source lines 958-974): capture
`param_count` tokens (all remaining tokens when the count is `-1`), require
and discard the `param_until` terminator, and run the converter.  Returns
the captured parameters together with the updated remaining argument
list. -/
def parse_command_params (pyInt : Str → Option Int) (c : Cmd)
    (args : List Str) : Except PErr (PParams × List Str) :=
  let cap := if 0 ≤ c.param_count then args.take c.param_count.toNat else args
  match c.param_until with
  | some t =>
    if t ∈ cap then
      let cap2 := cap.take (listIndexOf t cap)
      let rest := args.drop (cap2.length + 1)
      if c.convert then
        match convertAll pyInt cap2 with
        | some ns => .ok (.ints ns, rest)
        | none => .error .valueErr
      else .ok (.strs cap2, rest)
    else .error .paramCount
  | none =>
    let rest := args.drop cap.length
    if c.convert then
      match convertAll pyInt cap with
      | some ns => .ok (.ints ns, rest)
      | none => .error .valueErr
    else .ok (.strs cap, rest)

/-- The interpreter state visible to handlers: the stop-on-error switch
(read by the dispatch loop and writable by `--stoponerror`) plus an
abstract payload covering buffer, environment, sinks and the filesystem. -/
structure HState (σ : Type) where
  stop_on_error : Bool
  payload : σ
  deriving DecidableEq, Repr

/-- A handler oracle: given the command's long flag, the captured
parameters and the state, produce the stage's status code and the new
state.  Handlers in the source never touch `self.args`, which is why the
oracle does not see the remaining argument list. -/
abbrev Handler (σ : Type) := Str → PParams → HState σ → Nat × HState σ

/-- Outcome of the registry scan (`for name, value in ...` in
`parse_commands`): fall through with no match, a raised exception, or a
stage that ran with the given status, remaining arguments, new state and
invocation record. -/
inductive DispRes (σ : Type) where
  | unknown
  | raised (e : PErr)
  | ran (res : Nat) (rest : List Str) (st : HState σ) (inv : Str × PParams)
  deriving DecidableEq, Repr

/-- The registry scan of `parse_commands` (source lines 984-991): first
spec whose flag matches wins; arity errors and converter errors abort the
scan as exceptions. -/
def dispatchList {σ : Type} (H : Handler σ) (pyInt : Str → Option Int) :
    List Cmd → List Str → HState σ → DispRes σ
  | [], _, _ => .unknown
  | c :: cs, args, st =>
    match parse_command c args with
    | .noMatch => dispatchList H pyInt cs args st
    | .countErr => .raised .paramCount
    | .matched rest =>
      match parse_command_params pyInt c rest with
      | .error e => .raised e
      | .ok (ps, rest') =>
        let r := H c.long ps st
        .ran r.1 rest' r.2 (c.long, ps)

/-- Result of `parse_commands`: a returned status code, an uncaught
exception escaping the function, or exhausted fuel (never reached by an
actual run: every iteration strictly consumes argument characters). -/
inductive POut where
  | code (n : Nat)
  | exc (e : PErr)
  | fuelOut
  deriving DecidableEq, Repr

/-- `CommandProcessor.parse_commands` (source lines 976-1005), fuelled.
`res` is the loop-carried `result` variable (initially `NoCommands` = 8);
`tr` accumulates the handler invocations actually performed, so "the
handler is never invoked" is visible as an unchanged trace.  A
`ParameterCountError` is caught and reported as `MissingParameter` = 6;
a converter `ValueError` escapes the function. -/
def parseCommandsF {σ : Type} (H : Handler σ) (pyInt : Str → Option Int) :
    Nat → List Str → HState σ → Nat → List (Str × PParams) →
    POut × List (Str × PParams)
  | _, [], _, res, tr => (.code res, tr)
  | 0, _ :: _, _, _, tr => (.fuelOut, tr)
  | fuel + 1, a :: args, st, _, tr =>
    match dispatchList H pyInt registry (a :: args) st with
    | .unknown => (.code 7, tr)
    | .raised .paramCount => (.code 6, tr)
    | .raised .valueErr => (.exc .valueErr, tr)
    | .ran r rest st' inv =>
      let tr' := tr ++ [inv]
      if r = 7 then (.code 7, tr')
      else if r ≠ 0 ∧ st'.stop_on_error then (.code r, tr')
      else parseCommandsF H pyInt fuel rest st' r tr'

/-- Trivial handler used by concrete witnesses: every stage succeeds and
leaves the state unchanged. -/
def H0 : Handler Unit := fun _ _ st => (0, st)

/-- Initial interpreter state for witnesses (`stop_on_error = True`). -/
def hs0 : HState Unit := ⟨true, ()⟩

example : parse_command (mkCmd (s "--filter") (some (s "-f")) (some [s "REGEX"]) (-1) none false)
    [s "--filter-out", s "x"] = .noMatch := by decide
example : parse_command (mkCmd (s "--sub") (some (s "-s")) (some [s "REGEX", s "SUB"]) 2 none false)
    [s "--sub", s "x"] = .countErr := by decide
example : parseCommandsF H0 pyIntDefault 3 [s "--bogus"] hs0 8 [] = (.code 7, []) := by decide

/-! ## Pipeline state and handler models (source lines 290-302, 481-534,
536-744, 759-800, 869-881) -/

/-- The slice of `CommandProcessor` state the modelled handlers touch:
the text buffer `current_output` and the `stop_on_error` switch. -/
structure PS where
  current_output : Str
  stop_on_error : Bool
  deriving DecidableEq, Repr

/-- Python numbers as sort/sum keys: rationals extended with the
`float("inf")` / `float("-inf")` sentinels used by `ignore_error_lines`. -/
abbrev ENum := WithBot (WithTop ℚ)

/-- Embed a rational as a finite `ENum`. -/
def enum (q : ℚ) : ENum := ((q : WithTop ℚ) : ENum)

/-- `float("inf")`. -/
def enumTop : ENum := ((⊤ : WithTop ℚ) : ENum)

/-- `float("-inf")`. -/
def enumBot : ENum := (⊥ : ENum)

/-- A computed sort key: a Python string or a Python number.  One
`--sort` invocation can produce both kinds at once — a numeric flag
followed by `strip` keeps `use_numeric` sticky, so with
`ignore_error_lines` good lines get string keys while error lines get
`float("inf")` — and CPython's `sorted()` then raises `TypeError` on the
first cross-kind comparison. -/
inductive PyVal where
  | vstr (v : Str)
  | vnum (q : ENum)
  deriving DecidableEq

/-- Exceptions raised by handler bodies and caught nowhere: the
`IndexError` of `unique` and the `TypeError` of a cross-kind key
comparison inside `sorted()`. -/
inductive PyRunErr where
  | indexError
  | typeError
  deriving DecidableEq, Repr

/-- Python `<=` on sort keys, partial: comparing a string key with a
numeric key raises `TypeError` in CPython, modelled as `none`. -/
def pyValLe : PyVal → PyVal → Option Bool
  | .vstr a, .vstr b => some (strLeB a b)
  | .vnum a, .vnum b => some (decide (a ≤ b))
  | .vstr _, .vnum _ => none
  | .vnum _, .vstr _ => none

/-- Oracles for the external collaborators of the line-transform library:
the `re` engine (`reCompile` — does the pattern compile; `reSearch` —
`none` for no match, `some g` for a match whose `value` group is `g`,
with `g = none` when the group is absent; `reSub` — the substituted
line), numeric literal parsing (`pyInt`, `pyIntHex`, `pyFloat`), and the
f-string output formatting of `--sum` (`sumFmt`; the source builds it
from the flag list via closures whose late binding of `flag` never
affects any claim here). -/
structure Oracles where
  reCompile : Str → Bool
  reSearch : Str → Str → Option (Option Str)
  reSub : Str → Str → Str → Str
  pyInt : Str → Option Int
  pyIntHex : Str → Option Int
  pyFloat : Str → Option ENum
  sumFmt : ENum → Str

mutual

/-- `re.split("[ \t]+", line)`: pieces between maximal space/tab runs,
with empty pieces kept at the boundaries. -/
def splitWsGo : Str → Str → List Str
  | [], cur => [cur.reverse]
  | c :: cs, cur =>
    if c = ' ' ∨ c = '\t' then cur.reverse :: splitWsSkip cs
    else splitWsGo cs (c :: cur)

/-- Worker for `reSplitWs`, inside a separator run. -/
def splitWsSkip : Str → List Str
  | [] => [[]]
  | c :: cs => if c = ' ' ∨ c = '\t' then splitWsSkip cs else splitWsGo cs [c]

end

/-- `re.split("[ \t]+", line)`. -/
def reSplitWs (l : Str) : List Str := splitWsGo l []

/-- The escape decoding applied to a regex `column=` value (source lines
571, 693): `replace("\\t","\t").replace("\\n","\n").replace("\\r","\r")`. -/
def escRepl (g : Str) : Str :=
  pyReplace (s "\\r") (s "\r") (pyReplace (s "\\n") (s "\n") (pyReplace (s "\\t") (s "\t") g))

/-- The quote stripping applied to a regex `column=` value (source lines
572, 695): trailing `"`, leading `"`, trailing `'`, leading `'`. -/
def stripQuotes (g : Str) : Str :=
  cutPre (cutSuf (cutPre (cutSuf g [Char.ofNat 34]) [Char.ofNat 34]) [Char.ofNat 39]) [Char.ofNat 39]

/-- The per-value key function of `--sort`, selected by the flag loop. -/
inductive KeyF where
  | kid | kfloat | kint | khex | kstrip
  deriving DecidableEq, Repr

/-- The transient configuration `--sort` rebuilds from its flag list. -/
structure SortCfg where
  column : Sum Int Str
  reverse : Bool
  ignore_error_lines : Bool
  use_numeric : Bool
  key : KeyF
  deriving DecidableEq

/-- The initial `--sort` configuration (source lines 540-544). -/
def sortCfg0 : SortCfg := ⟨.inl 0, false, false, false, .kid⟩

/-- One iteration of the `--sort` flag loop (source lines 545-578);
`.error` carries the returned status code (`InvalidSortColumn` = 15,
`InvalidSortFlag` = 14). -/
def sortFlagStep (O : Oracles) (cfg : SortCfg) (f : Str) : Except Nat SortCfg :=
  if f = s "none" then .ok cfg
  else if f = s "desc" then .ok { cfg with reverse := true }
  else if f = s "asc" then .ok { cfg with reverse := false }
  else if f = s "float" then .ok { cfg with use_numeric := true, key := .kfloat }
  else if f = s "int" then .ok { cfg with use_numeric := true, key := .kint }
  else if f = s "int16" then .ok { cfg with use_numeric := true, key := .khex }
  else if f = s "strip" then .ok { cfg with key := .kstrip }
  else if f = s "ignore_error_lines" then .ok { cfg with ignore_error_lines := true }
  else if isPre (s "column=") f then
    let g := cutPre f (s "column=")
    match O.pyInt g with
    | some n => .ok { cfg with column := .inl (n - 1) }
    | none =>
      if O.reCompile (stripQuotes (escRepl g)) then
        .ok { cfg with column := .inr (stripQuotes (escRepl g)) }
      else .error 15
  else .error 14

/-- The full `--sort` flag loop. -/
def sortParseFlags (O : Oracles) : List Str → SortCfg → Except Nat SortCfg
  | [], cfg => .ok cfg
  | f :: fs, cfg =>
    match sortFlagStep O cfg f with
    | .ok cfg' => sortParseFlags O fs cfg'
    | .error e => .error e

/-- Apply the selected key function to a captured field; `none` models a
raised conversion error. -/
def applyKeyF (O : Oracles) : KeyF → Str → Option PyVal
  | .kid, v => some (.vstr v)
  | .kfloat, v => (O.pyFloat v).map .vnum
  | .kint, v => (O.pyInt v).map fun n => .vnum (enum (n : ℚ))
  | .khex, v => (O.pyIntHex v).map fun n => .vnum (enum (n : ℚ))
  | .kstrip, v => some (.vstr (pyStrip v))

/-- The `ignore_error_lines` fallback value of `--sort` (source lines
584-588, 599-603, 606-610): `±inf` for numeric keys (direction-dependent),
the empty string otherwise; `none` means the error is re-raised. -/
def sortErrVal (cfg : SortCfg) : Option PyVal :=
  if cfg.ignore_error_lines then
    if cfg.use_numeric then some (.vnum (if cfg.reverse then enumBot else enumTop))
    else some (.vstr [])
  else none

/-- `get_value` of `--sort` (source lines 580-611): `none` models an
exception escaping `get_value`. -/
def sortGetValue (O : Oracles) (cfg : SortCfg) (line : Str) : Option PyVal :=
  match cfg.column with
  | .inl i =>
    let split := reSplitWs line
    if (split.length : Int) ≤ i then sortErrVal cfg
    else
      match pyIndex split i with
      | some v => applyKeyF O cfg.key v
      | none => none
  | .inr pat =>
    match O.reSearch pat line with
    | some (some v) =>
      match applyKeyF O cfg.key v with
      | some k => some k
      | none => sortErrVal cfg
    | some none => sortErrVal cfg
    | none => sortErrVal cfg

/-- Stable insertion of `x` with the partial comparison `le`: `x` goes
before the first element it compares `le` to, so earlier input stays
first among equals; a `none` comparison aborts the whole sort, mirroring
`sorted()` raising `TypeError`. -/
def insertLe {α : Type} (le : α → α → Option Bool) (x : α) : List α → Option (List α)
  | [] => some [x]
  | y :: ys =>
    match le x y with
    | none => none
    | some true => some (x :: y :: ys)
    | some false => (insertLe le x ys).map fun out => y :: out

/-- Stable sort by a partial Boolean comparison; models Python `sorted`,
which is specified to be stable (stability plus sortedness determines the
output uniquely) and which raises `TypeError` when it compares
incomparable keys.  With two or more lines and both key kinds present,
every comparison sort must compare some string key with some numeric key
to order them, so this sort crashes exactly when `sorted()` does. -/
def insSort {α : Type} (le : α → α → Option Bool) : List α → Option (List α)
  | [] => some []
  | x :: xs =>
    match insSort le xs with
    | none => none
    | some m => insertLe le x m

/-- The line comparison used by the `--sort` reordering pass:
`sorted(lines, key=get_value, reverse=reverse)`; with `reverse` the
comparison flips while stability is kept (CPython reverses, sorts,
reverses back).  The `getD` default is never reached after a successful
validation pass. -/
def sortLe (O : Oracles) (cfg : SortCfg) (a b : Str) : Option Bool :=
  let ka := (sortGetValue O cfg a).getD (.vstr [])
  let kb := (sortGetValue O cfg b).getD (.vstr [])
  if cfg.reverse then pyValLe kb ka else pyValLe ka kb

/-- `CommandProcessor.sort` (source lines 536-624): parse flags, validate
every line's key, then stably reorder; buffer untouched on any returned
error status.  A cross-kind key comparison during the reorder pass is the
uncaught `TypeError` of `sorted()` (source line 622), which crashes the
process before `self.current_output` is reassigned. -/
def sort (O : Oracles) (flags : Str) (st : PS) : Except PyRunErr (Nat × PS) :=
  match sortParseFlags O (pySplitCh ',' flags) sortCfg0 with
  | .error e => .ok (e, st)
  | .ok cfg =>
    if (pySplitlines st.current_output).all (fun l => (sortGetValue O cfg l).isSome) then
      match insSort (sortLe O cfg) (pySplitlines st.current_output) with
      | some sortedLines => .ok (0, { st with current_output := joinNL sortedLines })
      | none => .error .typeError
    else .ok (16, st)

/-- The per-value key function of `--sum`. -/
inductive SumKeyF where
  | sfloat | sint | shex
  deriving DecidableEq, Repr

/-- The transient configuration `--sum` rebuilds from its flag list (the
output format closures are abstracted into the `sumFmt` oracle). -/
structure SumCfg where
  column : Sum Int Str
  ignore_error_lines : Bool
  key : SumKeyF
  deriving DecidableEq

/-- The initial `--sum` configuration (source lines 669-672). -/
def sumCfg0 : SumCfg := ⟨.inl 0, false, .sfloat⟩

/-- One iteration of the `--sum` flag loop (source lines 673-701);
`.error` carries `InvalidSortColumn` = 15 or `InvalidSumFlag` = 17. -/
def sumFlagStep (O : Oracles) (cfg : SumCfg) (f : Str) : Except Nat SumCfg :=
  if f = s "none" ∨ f = s "float" then .ok cfg
  else if f = s "int16" then .ok { cfg with key := .shex }
  else if f = s "int" then .ok { cfg with key := .sint }
  else if isPre (s "float=") f then .ok cfg
  else if f = s "ignore_error_lines" then .ok { cfg with ignore_error_lines := true }
  else if isPre (s "column=") f then
    let g := cutPre f (s "column=")
    match O.pyInt g with
    | some n => .ok { cfg with column := .inl (n - 1) }
    | none =>
      if O.reCompile (stripQuotes (escRepl g)) then
        .ok { cfg with column := .inr (stripQuotes (escRepl g)) }
      else .error 15
  else .error 17

/-- The full `--sum` flag loop. -/
def sumParseFlags (O : Oracles) : List Str → SumCfg → Except Nat SumCfg
  | [], cfg => .ok cfg
  | f :: fs, cfg =>
    match sumFlagStep O cfg f with
    | .ok cfg' => sumParseFlags O fs cfg'
    | .error e => .error e

/-- Apply the `--sum` key function to a captured field. -/
def sumApplyKey (O : Oracles) : SumKeyF → Str → Option ENum
  | .sfloat, v => O.pyFloat v
  | .sint, v => (O.pyInt v).map fun n => enum (n : ℚ)
  | .shex, v => (O.pyIntHex v).map fun n => enum (n : ℚ)

/-- `get_value` of `--sum` (source lines 702-724); the error fallback is
`0`, and `none` models an exception escaping `get_value`. -/
def sumGetValue (O : Oracles) (cfg : SumCfg) (line : Str) : Option ENum :=
  match cfg.column with
  | .inl i =>
    let split := reSplitWs line
    if (split.length : Int) ≤ i then
      if cfg.ignore_error_lines then some (enum 0) else none
    else
      match pyIndex split i with
      | some v => sumApplyKey O cfg.key v
      | none => none
  | .inr pat =>
    match O.reSearch pat line with
    | some (some v) =>
      match sumApplyKey O cfg.key v with
      | some k => some k
      | none => if cfg.ignore_error_lines then some (enum 0) else none
    | some none => if cfg.ignore_error_lines then some (enum 0) else none
    | none => if cfg.ignore_error_lines then some (enum 0) else none

/-- `CommandProcessor.sum_lines` (source lines 665-737): parse flags,
validate every line, then replace the buffer by the formatted total;
buffer untouched on any error. -/
def sum_lines (O : Oracles) (flags : Str) (st : PS) : Nat × PS :=
  match sumParseFlags O (pySplitCh ',' flags) sumCfg0 with
  | .error e => (e, st)
  | .ok cfg =>
    if (pySplitlines st.current_output).all (fun l => (sumGetValue O cfg l).isSome) then
      (0, { st with current_output :=
              O.sumFmt ((pySplitlines st.current_output).foldl
                (fun acc l => acc + (sumGetValue O cfg l).getD (enum 0)) (enum 0)) })
    else (18, st)

/-- `CommandProcessor.filter_lines` (source lines 481-495): keep lines the
compiled pattern matches; `RegexError` = 2 on a compilation failure, before
any buffer change. -/
def filter_lines (O : Oracles) (pattern : Str) (st : PS) : Nat × PS :=
  if O.reCompile pattern then
    (0, { st with current_output :=
            joinNL ((pySplitlines st.current_output).filter
              fun l => (O.reSearch pattern l).isSome) })
  else (2, st)

/-- `CommandProcessor.remove_lines_regex` (source lines 497-511), i.e.
`--filter-out`: drop matching lines. -/
def remove_lines_regex (O : Oracles) (pattern : Str) (st : PS) : Nat × PS :=
  if O.reCompile pattern then
    (0, { st with current_output :=
            joinNL ((pySplitlines st.current_output).filter
              fun l => !(O.reSearch pattern l).isSome) })
  else (2, st)

/-- `CommandProcessor.regex_replace` (source lines 521-534), i.e. `--sub`:
per-line `re.sub` (with `re.DOTALL`, folded into the `reSub` oracle). -/
def regex_replace (O : Oracles) (pattern repl : Str) (st : PS) : Nat × PS :=
  if O.reCompile pattern then
    (0, { st with current_output :=
            joinNL ((pySplitlines st.current_output).map (O.reSub pattern repl)) })
  else (2, st)

/-- The accumulation loop of `CommandProcessor.unique` (source lines
629-633): `unique_lines[-1]` on the empty accumulator raises
`IndexError`. -/
def uniqueGo : List Str → List Str → Except PyRunErr (List Str)
  | [], acc => .ok acc
  | l :: ls, acc =>
    match acc.getLast? with
    | none => .error .indexError
    | some last => if l ≠ last then uniqueGo ls (acc ++ [l]) else uniqueGo ls acc

/-- `CommandProcessor.unique` (source lines 626-635). -/
def unique (st : PS) : Except PyRunErr (Nat × PS) :=
  match uniqueGo (pySplitlines st.current_output) [] with
  | .ok acc => .ok (0, { st with current_output := joinNL acc })
  | .error e => .error e

/-- `CommandProcessor.read` (source lines 290-302): the `"\n"` separator
is appended inside the `try` block before the file is opened (`openRead`
oracle; `none` models `OSError`); on failure the status is `IOError` = 3
only under `stop_on_error`, else `Ok`. -/
def readCmd (openRead : Str → Option Str) (path : Str) (st : PS) : Nat × PS :=
  let buf1 := if st.current_output ≠ [] then st.current_output ++ ['\n'] else st.current_output
  match openRead path with
  | some content => (0, { st with current_output := buf1 ++ content })
  | none =>
    if st.stop_on_error then (3, { st with current_output := buf1 })
    else (0, { st with current_output := buf1 })

/-- Filesystem oracle for `--ensure-dirs`: existence test and the success
of `os.makedirs`. -/
structure FsOracle where
  pathExists : Str → Bool
  mkdirOk : Str → Bool

/-- The loop of `CommandProcessor.ensure_dirs` (source lines 872-881):
returns the handler's status (`none` models Python's implicit `None`
return) together with the list of directories actually created. -/
def ensureDirsGo (O : FsOracle) : List Str → Option Nat × List Str
  | [] => (none, [])
  | l :: ls =>
    if pyStrip l ≠ [] ∧ ¬ O.pathExists (pyStrip l) then
      (if O.mkdirOk (pyStrip l) then (some 0, [pyStrip l]) else (some 3, []))
    else ensureDirsGo O ls

/-- `CommandProcessor.ensure_dirs` (source lines 869-881); the `PATH`
argument is bound but immediately shadowed by the loop variable. -/
def ensure_dirs (O : FsOracle) (_pathArg : Str) (st : PS) : Option Nat × List Str :=
  ensureDirsGo O (pySplitlines st.current_output)

/-- Host-environment detection results (source lines 748-757, 764, 783):
`isWin` is `os.name == 'nt' or sys.platform == 'cygwin'`, `isCyg` is
`os.path.isdir("/cygdrive")`, `isMsys` the MSYS2 test. -/
structure EnvCfg where
  isWin : Bool
  isCyg : Bool
  isMsys : Bool
  deriving DecidableEq, Repr

/-- `win_path_re` (source line 87): `^([a-zA-Z]+):[\\/](.*)$` with the
`drive` and `path` groups. -/
def winPathMatch (l : Str) : Option (Str × Str) :=
  let d := l.takeWhile isAsciiLetter
  if d = [] then none
  else
    match l.drop d.length with
    | c1 :: c :: rest => if c1 = ':' ∧ (c = '\\' ∨ c = '/') then some (d, rest) else none
    | _ => none

/-- `cygwin_path_re` (source line 88): `^/cygdrive/([a-zA-Z]+)/(.*)$`. -/
def cygPathMatch (l : Str) : Option (Str × Str) :=
  if isPre (s "/cygdrive/") l then
    let r := l.drop 10
    let d := r.takeWhile isAsciiLetter
    if d = [] then none
    else
      match r.drop d.length with
      | c :: rest => if c = '/' then some (d, rest) else none
      | _ => none
  else none

/-- `msys2_path_re` (source line 89): `^/([a-zA-Z]+)/(.*)$`. -/
def msysPathMatch (l : Str) : Option (Str × Str) :=
  match l with
  | c0 :: r =>
    if c0 = '/' then
      let d := r.takeWhile isAsciiLetter
      if d = [] then none
      else
        match r.drop d.length with
        | c :: rest => if c = '/' then some (d, rest) else none
        | _ => none
    else none
  | _ => none

/-- One line of `CommandProcessor.env_path` (source lines 765-776):
strip, normalise backslashes, and rewrite a drive-letter path to the
Cygwin/MSYS2 form; lines that do not match `win_path_re` are dropped
(`none`). -/
def envPathLine (E : EnvCfg) (line0 : Str) : Option Str :=
  let line := pyReplace (s "\\") (s "/") (pyStrip line0)
  match winPathMatch line with
  | none => none
  | some (d, p) =>
    let drive := strLower d
    let l2 :=
      if E.isCyg then s "/cygdrive/" ++ drive ++ s "/" ++ p
      else if E.isMsys then s "/" ++ drive ++ s "/" ++ p
      else line
    some (cutSuf (pyReplace (s "//") (s "/") l2) (s "/"))

/-- `CommandProcessor.env_path` (source lines 759-778): a no-op off
Windows. -/
def env_path (E : EnvCfg) (st : PS) : Nat × PS :=
  if E.isWin then
    (0, { st with current_output := joinNL ((pySplitlines st.current_output).filterMap (envPathLine E)) })
  else (0, st)

/-- One line of `CommandProcessor.platform_path` (source lines 785-798):
strip, normalise backslashes, and rewrite a Cygwin/MSYS2 path back to the
`drive:/rest` form; non-matching lines pass through. -/
def platformPathLine (E : EnvCfg) (line0 : Str) : Str :=
  let line := pyReplace (s "\\") (s "/") (pyStrip line0)
  if E.isCyg then
    match cygPathMatch line with
    | some (d, p) => strLower d ++ s ":/" ++ p
    | none => line
  else if E.isMsys then
    match msysPathMatch line with
    | some (d, p) => strLower d ++ s ":/" ++ p
    | none => line
  else line

/-- `CommandProcessor.platform_path` (source lines 780-800): a no-op off
Windows. -/
def platform_path (E : EnvCfg) (st : PS) : Nat × PS :=
  if E.isWin then
    (0, { st with current_output := joinNL ((pySplitlines st.current_output).map (platformPathLine E)) })
  else (0, st)

/-- A concrete oracle bundle for witnesses: no pattern compiles, nothing
matches, numeric parsing is `pyIntDefault` for decimals and rejects
otherwise. -/
def O0 : Oracles :=
  { reCompile := fun _ => false
    reSearch := fun _ _ => none
    reSub := fun _ _ l => l
    pyInt := pyIntDefault
    pyIntHex := fun _ => none
    pyFloat := fun _ => none
    sumFmt := fun _ => [] }

/-- A concrete filesystem oracle for witnesses: nothing exists, every
`makedirs` succeeds. -/
def Fs0 : FsOracle := { pathExists := fun _ => false, mkdirOk := fun _ => true }

/-- The simulated Cygwin host of the round-trip claim: Windows OS family,
`/cygdrive` present, MSYS2 absent. -/
def cygEnv : EnvCfg := ⟨true, true, false⟩

example : reSplitWs (s " a  b") = [s "", s "a", s "b"] := by decide
example : reSplitWs (s "") = [s ""] := by decide
example : sort O0 (s "bogus") ⟨s "b\na", true⟩ = .ok (14, ⟨s "b\na", true⟩) := by decide
example : sort O0 (s "none") ⟨s "b\na", true⟩ = .ok (0, ⟨s "a\nb", true⟩) := by decide
example : sort O0 (s "desc") ⟨s "b\na", true⟩ = .ok (0, ⟨s "b\na", true⟩) := by decide
example : unique ⟨s "a\na\nb\na", true⟩ = .error .indexError := rfl
example : unique ⟨s "", true⟩ = .ok (0, ⟨s "", true⟩) := rfl
example : envPathLine cygEnv (s "C:\\Users\\x") = some (s "/cygdrive/c/Users/x") := by decide
example : platformPathLine cygEnv (s "/cygdrive/c/Users/x") = s "c:/Users/x" := by decide

/-! ## Theorems -/

/-- Claim C10: `--read` is not atomic on error.  When the buffer is
non-empty the `"\n"` separator is appended before the open is attempted,
so an `OSError` (`openRead path = none`) leaves the buffer mutated by
that newline; with `stop_on_error` the stage reports `IOError` = 3, and
without it the same failure reports `Ok` = 0 (the error is swallowed). -/
theorem C10_read_not_atomic (o : Str → Option Str) (path : Str) (st : PS)
    (hne : st.current_output ≠ []) (hfail : o path = none) :
    (st.stop_on_error = true →
      readCmd o path st = (3, { st with current_output := st.current_output ++ ['\n'] }))
    ∧ (st.stop_on_error = false →
      readCmd o path st = (0, { st with current_output := st.current_output ++ ['\n'] })) := by
  unfold readCmd
  rw [hfail]
  constructor <;> intro h <;> simp [hne, h]

/-- Witness for C10 at a concrete one-character buffer and an always
failing open. -/
theorem C10_read_not_atomic_witness :
    readCmd (fun _ => none) (s "f") ⟨s "x", true⟩ =
      (3, { (⟨s "x", true⟩ : PS) with current_output := s "x" ++ ['\n'] })
    ∧ readCmd (fun _ => none) (s "f") ⟨s "x", false⟩ =
      (0, { (⟨s "x", false⟩ : PS) with current_output := s "x" ++ ['\n'] }) :=
  ⟨(C10_read_not_atomic (fun _ => none) (s "f") ⟨s "x", true⟩ (by decide) rfl).1 rfl,
   (C10_read_not_atomic (fun _ => none) (s "f") ⟨s "x", false⟩ (by decide) rfl).2 rfl⟩

/-- Claim C7, against the code: on the buffer with lines
`["a","a","b","a"]` the `--unique` handler does not return `Ok` with
`["a","b","a"]` — its first loop iteration evaluates `unique_lines[-1]`
on the empty accumulator and raises an uncaught `IndexError` (source
line 632), crashing the process on every non-empty buffer. -/
theorem C7_unique_index_error :
    unique ⟨s "a\na\nb\na", true⟩ = Except.error PyRunErr.indexError := rfl

/-- The loop of `--ensure-dirs` creates at most one directory. -/
theorem ensureDirsGo_len_le_one (O : FsOracle) (ls : List Str) :
    (ensureDirsGo O ls).2.length ≤ 1 := by
  induction ls with
  | nil => simp [ensureDirsGo]
  | cons l ls ih =>
    rw [ensureDirsGo]
    by_cases h : pyStrip l ≠ [] ∧ ¬ O.pathExists (pyStrip l) = true
    · rw [if_pos h]
      by_cases hm : O.mkdirOk (pyStrip l) = true
      · rw [if_pos hm]; simp
      · rw [if_neg hm]; simp
    · rwa [if_neg h]

/-- The loop of `--ensure-dirs` returns Python `None` when every line is
blank or already exists. -/
theorem ensureDirsGo_all_skip (O : FsOracle) (ls : List Str)
    (h : ∀ l ∈ ls, pyStrip l = [] ∨ O.pathExists (pyStrip l) = true) :
    ensureDirsGo O ls = (none, []) := by
  induction ls with
  | nil => rfl
  | cons l ls ih =>
    rw [ensureDirsGo, if_neg]
    · exact ih fun x hx => h x (List.mem_cons_of_mem _ hx)
    · rcases h l (List.mem_cons_self _ _) with h0 | h0 <;> simp [h0]

/-- The loop of `--ensure-dirs` acts exactly at the first qualifying
line. -/
theorem ensureDirsGo_first_hit (O : FsOracle) (pre : List Str) (l : Str)
    (post : List Str)
    (hpre : ∀ x ∈ pre, pyStrip x = [] ∨ O.pathExists (pyStrip x) = true)
    (hl : pyStrip l ≠ []) (hex : O.pathExists (pyStrip l) = false) :
    ensureDirsGo O (pre ++ l :: post) =
      (if O.mkdirOk (pyStrip l) then (some 0, [pyStrip l]) else (some 3, [])) := by
  induction pre with
  | nil =>
    rw [List.nil_append, ensureDirsGo, if_pos]
    exact ⟨hl, by simp [hex]⟩
  | cons x xs ih =>
    rw [List.cons_append, ensureDirsGo, if_neg]
    · exact ih fun y hy => hpre y (List.mem_cons_of_mem _ hy)
    · rcases hpre x (List.mem_cons_self _ _) with h0 | h0 <;> simp [h0]

/-- Claim C9: `--ensure-dirs` creates at most one directory per
invocation; it stops with `Ok` = 0 right after the first non-blank,
non-existing line's directory is created (reporting `IOError` = 3 if
that single `makedirs` fails), and when every line is blank or already
exists the handler falls off the loop and returns Python `None` (no
status code at all). -/
theorem C9_ensure_dirs_single_shot (O : FsOracle) (pa : Str) (st : PS) :
    (ensure_dirs O pa st).2.length ≤ 1
    ∧ ((∀ l ∈ pySplitlines st.current_output,
          pyStrip l = [] ∨ O.pathExists (pyStrip l) = true) →
        ensure_dirs O pa st = (none, []))
    ∧ (∀ pre l post, pySplitlines st.current_output = pre ++ l :: post →
        (∀ x ∈ pre, pyStrip x = [] ∨ O.pathExists (pyStrip x) = true) →
        pyStrip l ≠ [] → O.pathExists (pyStrip l) = false →
        ensure_dirs O pa st =
          (if O.mkdirOk (pyStrip l) then (some 0, [pyStrip l]) else (some 3, []))) := by
  unfold ensure_dirs
  refine ⟨ensureDirsGo_len_le_one O _, ensureDirsGo_all_skip O _, ?_⟩
  intro pre l post hsplit hpre hl hex
  rw [hsplit]
  exact ensureDirsGo_first_hit O pre l post hpre hl hex

/-- Witness for C9: a buffer whose first line exists already, second line
is blank, third line gets created. -/
theorem C9_ensure_dirs_single_shot_witness :
    (ensure_dirs ⟨fun p => p = s "a", fun _ => true⟩ (s "x") ⟨s "a\n\nb\nc", true⟩).2.length ≤ 1
    ∧ ensure_dirs ⟨fun p => p = s "a", fun _ => true⟩ (s "x") ⟨s "a\n\nb\nc", true⟩
        = (if true then (some 0, [s "b"]) else (some 3, [])) := by
  constructor
  · exact (C9_ensure_dirs_single_shot ⟨fun p => p = s "a", fun _ => true⟩ (s "x")
      ⟨s "a\n\nb\nc", true⟩).1
  · have h := (C9_ensure_dirs_single_shot ⟨fun p => p = s "a", fun _ => true⟩ (s "x")
      ⟨s "a\n\nb\nc", true⟩).2.2 [s "a", s ""] (s "b") [s "c"] (by decide)
      (by decide) (by decide) (by decide)
    simpa using h

/-- Claim C3: validate-then-apply atomicity.  Whenever `--sort`, `--sum`,
`--filter`, `--filter-out` or `--sub` returns a status other than `Ok`
(regex compilation failure, bad flag, numeric conversion or
missing-column error not absorbed by `ignore_error_lines`), the pipeline
state — in particular the buffer — is exactly the state from before the
stage, for every behaviour of the regex/number oracles. -/
theorem C3_validate_then_apply (O : Oracles) (flags pat rep : Str) (st : PS) :
    (∀ r st2, sort O flags st = .ok (r, st2) → r ≠ 0 → st2 = st)
    ∧ ((sum_lines O flags st).1 ≠ 0 → (sum_lines O flags st).2 = st)
    ∧ ((filter_lines O pat st).1 ≠ 0 → (filter_lines O pat st).2 = st)
    ∧ ((remove_lines_regex O pat st).1 ≠ 0 → (remove_lines_regex O pat st).2 = st)
    ∧ ((regex_replace O pat rep st).1 ≠ 0 → (regex_replace O pat rep st).2 = st) := by
  refine ⟨?_, ?_, ?_, ?_, ?_⟩
  case _ =>
    intro r st2 hok hr
    unfold sort at hok
    split at hok <;> rename_i x heq
    · injection hok with h1
      injection h1 with h1 h2
      exact h2.symm
    · split at hok <;> rename_i hvv
      · split at hok
        · rename_i sorted hs
          injection hok with h1
          injection h1 with h1 h2
          exact absurd h1.symm hr
        · exact Except.noConfusion hok
      · injection hok with h1
        injection h1 with h1 h2
        exact h2.symm
  all_goals intro h
  · unfold sum_lines at h ⊢
    split at h <;> rename_i x heq
    · rfl
    · split at h <;> rename_i hvv
      · exact absurd rfl h
      · rw [if_neg hvv]
  · unfold filter_lines at h ⊢
    by_cases hc : O.reCompile pat = true
    · rw [if_pos hc] at h
      exact absurd rfl h
    · rw [if_neg hc]
  · unfold remove_lines_regex at h ⊢
    by_cases hc : O.reCompile pat = true
    · rw [if_pos hc] at h
      exact absurd rfl h
    · rw [if_neg hc]
  · unfold regex_replace at h ⊢
    by_cases hc : O.reCompile pat = true
    · rw [if_pos hc] at h
      exact absurd rfl h
    · rw [if_neg hc]

/-- Witness for C3: under the oracle where nothing compiles, an unknown
sort flag, a bad sum flag and failing regex compilations all leave the
concrete state untouched. -/
theorem C3_validate_then_apply_witness :
    (sort O0 (s "bogus") ⟨s "b\na", true⟩ = .ok (14, ⟨s "b\na", true⟩)
      ∧ (⟨s "b\na", true⟩ : PS) = ⟨s "b\na", true⟩)
    ∧ (sum_lines O0 (s "bogus") ⟨s "b\na", true⟩).2 = ⟨s "b\na", true⟩
    ∧ (filter_lines O0 (s "x(") ⟨s "b\na", true⟩).2 = ⟨s "b\na", true⟩
    ∧ (remove_lines_regex O0 (s "x(") ⟨s "b\na", true⟩).2 = ⟨s "b\na", true⟩
    ∧ (regex_replace O0 (s "x(") (s "y") ⟨s "b\na", true⟩).2 = ⟨s "b\na", true⟩ := by
  have h := C3_validate_then_apply O0 (s "bogus") (s "x(") (s "y") ⟨s "b\na", true⟩
  exact ⟨⟨by decide, h.1 14 ⟨s "b\na", true⟩ (by decide) (by decide)⟩,
    h.2.1 (by decide), h.2.2.1 (by decide),
    h.2.2.2.1 (by decide), h.2.2.2.2 (by decide)⟩

/-- `strLeB` is reflexive. -/
theorem strLeB_refl (a : Str) : strLeB a a = true := by
  induction a with
  | nil => rfl
  | cons c cs ih => simp [strLeB, ih]

/-- `pyValLe` is reflexive: a key always compares to itself. -/
theorem pyValLe_refl (v : PyVal) : pyValLe v v = some true := by
  cases v with
  | vstr a => simp [pyValLe, strLeB_refl a]
  | vnum q => simp [pyValLe]

/-- Stable insertion never moves an element past one it compares equal
to: whenever insertion succeeds, filtering by a predicate `p` that forces
`le` to accept both ways commutes with it. -/
theorem filter_insertLe {α : Type} (le : α → α → Option Bool) (p : α → Bool)
    (hp : ∀ a b, p a = true → p b = true → le a b = some true) (x : α)
    (m out : List α) (h : insertLe le x m = some out) :
    out.filter p = if p x then x :: m.filter p else m.filter p := by
  induction m generalizing out with
  | nil =>
    rw [insertLe] at h
    injection h with h
    subst h
    by_cases hx : p x = true <;> simp [List.filter, hx]
  | cons y ys ih =>
    rw [insertLe] at h
    split at h <;> rename_i hxy
    · exact Option.noConfusion h
    · injection h with h
      subst h
      by_cases hx : p x = true <;> simp [List.filter_cons, hx]
    · obtain ⟨out2, hout2, hyo⟩ := Option.map_eq_some'.mp h
      subst hyo
      by_cases hy : p y = true
      · by_cases hx : p x = true
        · rw [hp x y hx hy] at hxy
          simp at hxy
        · simp [List.filter_cons, hy, hx, ih out2 hout2]
      · simp [List.filter_cons, hy, ih out2 hout2]

/-- Stability of the insertion sort: whenever it succeeds, the
subsequence of elements matching `p` is preserved verbatim. -/
theorem filter_insSort {α : Type} (le : α → α → Option Bool) (p : α → Bool)
    (hp : ∀ a b, p a = true → p b = true → le a b = some true)
    (l out : List α) (h : insSort le l = some out) :
    out.filter p = l.filter p := by
  induction l generalizing out with
  | nil =>
    rw [insSort] at h
    injection h with h
    subst h
    rfl
  | cons x xs ih =>
    rw [insSort] at h
    split at h
    · exact Option.noConfusion h
    · rename_i m hm
      rw [filter_insertLe le p hp x m out h, ih m hm]
      by_cases hx : p x = true <;> simp [List.filter_cons, hx]

/-- When `x` compares with every element of `m`, stable insertion
succeeds, and the output is drawn from `x` and `m`. -/
theorem insertLe_some {α : Type} (le : α → α → Option Bool) (x : α) (m : List α)
    (h : ∀ y ∈ m, (le x y).isSome = true) :
    ∃ out, insertLe le x m = some out ∧ ∀ z ∈ out, z = x ∨ z ∈ m := by
  induction m with
  | nil => exact ⟨[x], rfl, by simp⟩
  | cons y ys ih =>
    have hy := h y (List.mem_cons_self _ _)
    cases hxy : le x y with
    | none => rw [hxy] at hy; simp at hy
    | some b =>
      cases b with
      | true =>
        refine ⟨x :: y :: ys, ?_, fun z hz => List.mem_cons.mp hz⟩
        rw [insertLe, hxy]
      | false =>
        obtain ⟨out2, hout2, hmem⟩ := ih fun z hz => h z (List.mem_cons_of_mem _ hz)
        refine ⟨y :: out2, ?_, ?_⟩
        · rw [insertLe, hxy, hout2]
          rfl
        · intro z hz
          rcases List.mem_cons.mp hz with hzy | hz2
          · exact Or.inr (hzy ▸ List.mem_cons_self _ _)
          · rcases hmem z hz2 with hzx | hz3
            · exact Or.inl hzx
            · exact Or.inr (List.mem_cons_of_mem _ hz3)

/-- When all elements of `l` compare pairwise, the stable insertion sort
succeeds, and the output is drawn from `l`. -/
theorem insSort_some {α : Type} (le : α → α → Option Bool) (l : List α)
    (h : ∀ a ∈ l, ∀ b ∈ l, (le a b).isSome = true) :
    ∃ out, insSort le l = some out ∧ ∀ z ∈ out, z ∈ l := by
  induction l with
  | nil => exact ⟨[], rfl, by simp⟩
  | cons x xs ih =>
    obtain ⟨m, hm, hmemm⟩ := ih fun a ha b hb =>
      h a (List.mem_cons_of_mem _ ha) b (List.mem_cons_of_mem _ hb)
    obtain ⟨out, hout, hmem⟩ := insertLe_some le x m fun y hy =>
      h x (List.mem_cons_self _ _) y (List.mem_cons_of_mem _ (hmemm y hy))
    refine ⟨out, ?_, ?_⟩
    · rw [insSort, hm]
      exact hout
    · intro z hz
      rcases hmem z hz with hzx | hz2
      · exact hzx ▸ List.mem_cons_self _ _
      · exact List.mem_cons_of_mem _ (hmemm z hz2)

/-- A counterexample refuting the unconditional reading of claim C8: the
flags `int,strip,ignore_error_lines,column=2` make `use_numeric` sticky
past the `strip` key function, so on buffer `"a b\nc"` the good line gets
the string key `"b"` while the short line gets `float("inf")`; validation
passes, yet `sorted()` raises an uncaught `TypeError` on the cross-kind
comparison instead of returning a stably sorted buffer. -/
theorem C8_sort_mixed_keys_counterexample :
    sort O0 (s "int,strip,ignore_error_lines,column=2") ⟨s "a b\nc", true⟩
      = Except.error PyRunErr.typeError := by decide

/-- Claim C8 (amended): `--sort` is stable whenever the computed keys are
pairwise comparable.  If the flag set parses to `cfg`, every line's key
validates, and every two lines' keys compare (no mixed string/number
kinds), the handler succeeds and reorders with the stable insertion sort:
for every key value `k` the lines whose computed key is `k` appear in the
output in exactly their input order — for both directions, since
`cfg.reverse` is arbitrary.  Without pairwise comparability `sorted()`
raises `TypeError` instead. -/
theorem C8_sort_stable_when_comparable (O : Oracles) (flags : Str) (st : PS) (cfg : SortCfg)
    (hp : sortParseFlags O (pySplitCh ',' flags) sortCfg0 = .ok cfg)
    (hv : ((pySplitlines st.current_output).all
        fun l => (sortGetValue O cfg l).isSome) = true)
    (hcomp : ∀ a ∈ pySplitlines st.current_output, ∀ b ∈ pySplitlines st.current_output,
        (sortLe O cfg a b).isSome = true) :
    ∃ out, insSort (sortLe O cfg) (pySplitlines st.current_output) = some out
    ∧ sort O flags st = .ok (0, { st with current_output := joinNL out })
    ∧ ∀ k : PyVal,
        out.filter (fun l => decide (sortGetValue O cfg l = some k))
          = (pySplitlines st.current_output).filter
              (fun l => decide (sortGetValue O cfg l = some k)) := by
  obtain ⟨out, hout, hmem⟩ := insSort_some (sortLe O cfg) (pySplitlines st.current_output) hcomp
  refine ⟨out, hout, ?_, ?_⟩
  · unfold sort
    simp [hp, hv, hout]
  · intro k
    apply filter_insSort (sortLe O cfg) _ _ _ out hout
    intro a b ha hb
    have ha' : sortGetValue O cfg a = some k := of_decide_eq_true ha
    have hb' : sortGetValue O cfg b = some k := of_decide_eq_true hb
    unfold sortLe
    rw [ha', hb']
    by_cases hr : cfg.reverse = true <;> simp [hr, pyValLe_refl]

/-- Witness for C8: sorting `"b x\nb y\na z"` by the first column
succeeds (all keys are strings, hence pairwise comparable) and keeps the
two `b`-keyed lines in input order; the hypotheses evaluate by `decide`. -/
theorem C8_sort_stable_when_comparable_witness :
    sort O0 (s "none") ⟨s "b x\nb y\na z", true⟩ = Except.ok (0, ⟨s "a z\nb x\nb y", true⟩)
    ∧ ([s "a z", s "b x", s "b y"].filter
          fun l => decide (sortGetValue O0 sortCfg0 l = some (.vstr (s "b"))))
        = ((pySplitlines (s "b x\nb y\na z")).filter
          fun l => decide (sortGetValue O0 sortCfg0 l = some (.vstr (s "b")))) := by
  obtain ⟨out, hout, hsort, hstable⟩ := C8_sort_stable_when_comparable O0 (s "none")
    ⟨s "b x\nb y\na z", true⟩ sortCfg0 (by decide) (by decide) (by decide)
  have hconc : insSort (sortLe O0 sortCfg0) (pySplitlines (s "b x\nb y\na z"))
      = some [s "a z", s "b x", s "b y"] := by decide
  obtain rfl : out = [s "a z", s "b x", s "b y"] := Option.some.inj (hout.symm.trans hconc)
  refine ⟨?_, hstable (.vstr (s "b"))⟩
  rw [hsort]
  decide

/-- Specs whose flags do not match the head token are skipped by the
registry scan without any effect. -/
theorem dispatch_skip {σ : Type} (H : Handler σ) (pyInt : Str → Option Int)
    (pre rest : List Cmd) (args : List Str) (st : HState σ)
    (h : ∀ c ∈ pre, parse_command c args = .noMatch) :
    dispatchList H pyInt (pre ++ rest) args st = dispatchList H pyInt rest args st := by
  induction pre with
  | nil => rfl
  | cons c cs ih =>
    have hc := h c (List.mem_cons_self _ _)
    simp only [List.cons_append, dispatchList, hc]
    exact ih fun c' hc' => h c' (List.mem_cons_of_mem _ hc')

/-- A failing conversion anywhere in the captured tokens fails the whole
converter pass. -/
theorem convertAll_none (f : Str → Option Int) (l : List Str) (tok : Str)
    (hm : tok ∈ l) (hf : f tok = none) : convertAll f l = none := by
  induction l with
  | nil => cases hm
  | cons a as ih =>
    rw [convertAll]
    rcases List.mem_cons.mp hm with rfl | hm'
    · rw [hf]
    · cases hfa : f a
      · rfl
      · rw [ih hm']; rfl

/-- `list.index` on a list split at the first occurrence. -/
theorem listIndexOf_append (t : Str) (p q : List Str) (hnp : t ∉ p) :
    listIndexOf t (p ++ t :: q) = p.length := by
  induction p with
  | nil => simp [listIndexOf]
  | cons x xs ih =>
    rw [List.cons_append, listIndexOf,
      if_neg (fun h : x = t => hnp (h ▸ List.mem_cons_self x xs)),
      ih fun h => hnp (List.mem_cons_of_mem _ h)]
    rfl

/-- Taking the prefix length of a split list returns the prefix. -/
theorem take_len_app {α : Type} (p : List α) (x : α) (q : List α) :
    (p ++ x :: q).take p.length = p := by
  induction p with
  | nil => rfl
  | cons y ys ih => simp [List.take_succ_cons, ih]

/-- Dropping past the split point returns the tail. -/
theorem drop_len_succ_app {α : Type} (p : List α) (x : α) (q : List α) :
    (p ++ x :: q).drop (p.length + 1) = q := by
  induction p with
  | nil => rfl
  | cons y ys ih => simp [ih]

/-- Claim C1: a fixed-arity spec whose flag matches the head token while
fewer than `param_count` tokens remain makes `parse_commands` return
`MissingParameter` = 6 (via the caught `ParameterCountError`), with the
invocation trace unchanged — the handler is never invoked — for every
handler behaviour, converter, fuel, carried result and prior trace. -/
theorem C1_fixed_arity_missing_parameter {σ : Type} (H : Handler σ)
    (pyInt : Str → Option Int) (fuel res : Nat) (tr : List (Str × PParams))
    (pre : List Cmd) (c : Cmd) (post : List Cmd)
    (hreg : registry = pre ++ c :: post)
    (a : Str) (args rem : List Str) (st : HState σ)
    (hskip : ∀ c' ∈ pre, parse_command c' (a :: args) = .noMatch)
    (hcons : flagConsume c a args = some rem)
    (hlt : (rem.length : Int) < c.param_count) :
    parseCommandsF H pyInt (fuel + 1) (a :: args) st res tr = (.code 6, tr) := by
  have hpc : parse_command c (a :: args) = .countErr := by
    simp only [parse_command, hcons, if_pos hlt]
  simp only [parseCommandsF]
  rw [hreg, dispatch_skip H pyInt pre _ _ _ hskip]
  simp only [dispatchList, hpc]

/-- Witness for C1: `--sub` (arity 2) with a single remaining token. -/
theorem C1_fixed_arity_missing_parameter_witness :
    parseCommandsF H0 pyIntDefault 1 [s "--sub", s "x"] hs0 8 [] = (.code 6, []) :=
  C1_fixed_arity_missing_parameter H0 pyIntDefault 0 8 [] (registry.take 25)
    (mkCmd (s "--sub") (some (s "-s")) (some [s "REGEX", s "SUB"]) 2 none false)
    (registry.drop 26) (by decide) (s "--sub") [s "x"] [s "x"] hs0
    (by decide) (by decide) (by decide)

/-- Claim C4: when the head token matches no registered long or short
flag, `parse_commands` halts at once with `UnknownArgument` = 7, no
handler runs (the trace is unchanged), and the `stop_on_error` setting —
part of the arbitrary state `st` — plays no role. -/
theorem C4_unknown_argument_halts {σ : Type} (H : Handler σ)
    (pyInt : Str → Option Int) (fuel res : Nat) (tr : List (Str × PParams))
    (a : Str) (args : List Str) (st : HState σ)
    (h : ∀ c ∈ registry, parse_command c (a :: args) = .noMatch) :
    parseCommandsF H pyInt (fuel + 1) (a :: args) st res tr = (.code 7, tr) := by
  have hd : dispatchList H pyInt registry (a :: args) st = .unknown := by
    have h2 := dispatch_skip H pyInt registry [] (a :: args) st h
    rw [List.append_nil] at h2
    exact h2
  simp only [parseCommandsF, hd]

/-- Witness for C4: an unknown flag with `stop_on_error` off. -/
theorem C4_unknown_argument_halts_witness :
    parseCommandsF H0 pyIntDefault 1 [s "--bogus"] ⟨false, ()⟩ 8 [] = (.code 7, []) :=
  C4_unknown_argument_halts H0 pyIntDefault 0 8 [] (s "--bogus") [] ⟨false, ()⟩
    (by decide)

/-- Claim C5: an `UntilTerminator` spec (`param_count = -1`, a `param_until`
token `t`, no converter) captures exactly the tokens before the first
occurrence of `t`, the terminator itself is consumed and discarded (the
handler gets `p`, the remaining argument list is `q`), and when `t` never
occurs the stage fails with `MissingParameter` = 6 without invoking the
handler. -/
theorem C5_until_terminator {σ : Type} (H : Handler σ)
    (pyInt : Str → Option Int) (fuel res : Nat) (tr : List (Str × PParams))
    (pre : List Cmd) (c : Cmd) (post : List Cmd)
    (hreg : registry = pre ++ c :: post) (t : Str)
    (hu : c.param_until = some t) (hc : c.param_count = -1) (hcv : c.convert = false)
    (a : Str) (args rem : List Str) (st : HState σ)
    (hskip : ∀ c' ∈ pre, parse_command c' (a :: args) = .noMatch)
    (hcons : flagConsume c a args = some rem) :
    (∀ p q, rem = p ++ t :: q → t ∉ p →
        dispatchList H pyInt registry (a :: args) st =
          .ran (H c.long (.strs p) st).1 q (H c.long (.strs p) st).2 (c.long, .strs p))
    ∧ (t ∉ rem →
        parseCommandsF H pyInt (fuel + 1) (a :: args) st res tr = (.code 6, tr)) := by
  have hle : ¬ ((0 : Int) ≤ c.param_count) := by rw [hc]; decide
  have hpc : parse_command c (a :: args) = .matched rem := by
    simp only [parse_command, hcons]
    rw [if_neg (by rw [hc]; omega)]
  constructor
  · intro p q hrq hnp
    have hparams : parse_command_params pyInt c rem = .ok (.strs p, q) := by
      simp only [parse_command_params, hu, hcv, if_neg hle]
      subst hrq
      rw [if_pos (by simp : t ∈ p ++ t :: q)]
      rw [listIndexOf_append t p q hnp, take_len_app]
      simp [drop_len_succ_app]
    rw [hreg, dispatch_skip H pyInt pre _ _ _ hskip]
    simp only [dispatchList, hpc, hparams]
  · intro hnt
    have hparams : parse_command_params pyInt c rem = .error .paramCount := by
      simp only [parse_command_params, hu, hcv, if_neg hle]
      rw [if_neg hnt]
    simp only [parseCommandsF]
    rw [hreg, dispatch_skip H pyInt pre _ _ _ hskip]
    simp only [dispatchList, hpc, hparams]

/-- Witness for C5: `--exec a b ; --lower` captures `["a","b"]`, discards
the `;` and leaves `["--lower"]`; `--exec a` with no terminator yields
`MissingParameter`. -/
theorem C5_until_terminator_witness :
    dispatchList H0 pyIntDefault registry [s "--exec", s "a", s "b", s ";", s "--lower"] hs0 =
      .ran 0 [s "--lower"] hs0 (s "--exec", .strs [s "a", s "b"])
    ∧ parseCommandsF H0 pyIntDefault 1 [s "--exec", s "a"] hs0 8 [] = (.code 6, []) := by
  constructor
  · exact (C5_until_terminator H0 pyIntDefault 0 8 [] (registry.take 7)
      (mkCmd (s "--exec") (some (s "-e")) (some [s "COMMAND", s "ARGS..."]) (-1) (some (s ";")) false)
      (registry.drop 8) (by decide) (s ";") (by decide) (by decide) (by decide)
      (s "--exec") [s "a", s "b", s ";", s "--lower"] [s "a", s "b", s ";", s "--lower"]
      hs0 (by decide) (by decide)).1
      [s "a", s "b"] [s "--lower"] (by decide) (by decide)
  · exact (C5_until_terminator H0 pyIntDefault 0 8 [] (registry.take 7)
      (mkCmd (s "--exec") (some (s "-e")) (some [s "COMMAND", s "ARGS..."]) (-1) (some (s ";")) false)
      (registry.drop 8) (by decide) (s ";") (by decide) (by decide) (by decide)
      (s "--exec") [s "a"] [s "a"] hs0 (by decide) (by decide)).2 (by decide)

/-- Claim C2, against the code: a converter failure is not a
`MissingParameter`-class stage failure.  On `--include abc 2` the
`int` conversion of `"abc"` raises a `ValueError` that `parse_commands`
does not catch (it only catches `ParameterCountError`), so the run ends
in an uncaught exception — not in status 6 — with no handler invoked. -/
theorem C2_converter_counterexample :
    parseCommandsF H0 pyIntDefault 1 [s "--include", s "abc", s "2"] hs0 8 []
      = (.exc .valueErr, [])
    ∧ (POut.exc .valueErr, ([] : List (Str × PParams))) ≠ (.code 6, []) :=
  ⟨by decide, by decide⟩

/-- Claim C2 as amended: for a spec carrying the integer converter, a
token the converter rejects makes the interpreter abort with the uncaught
`ValueError` — the pipeline halts with no status of the taxonomy ever
produced and the handler is never invoked (trace unchanged). -/
theorem C2_converter_value_error {σ : Type} (H : Handler σ)
    (pyInt : Str → Option Int) (fuel res : Nat) (tr : List (Str × PParams))
    (pre : List Cmd) (c : Cmd) (post : List Cmd)
    (hreg : registry = pre ++ c :: post)
    (a : Str) (args rem : List Str) (st : HState σ)
    (hskip : ∀ c' ∈ pre, parse_command c' (a :: args) = .noMatch)
    (hcons : flagConsume c a args = some rem)
    (hnl : ¬ (rem.length : Int) < c.param_count)
    (h0 : (0 : Int) ≤ c.param_count)
    (hu : c.param_until = none) (hcv : c.convert = true)
    (tok : Str) (htok : tok ∈ rem.take c.param_count.toNat)
    (hfail : pyInt tok = none) :
    parseCommandsF H pyInt (fuel + 1) (a :: args) st res tr = (.exc .valueErr, tr) := by
  have hpc : parse_command c (a :: args) = .matched rem := by
    simp only [parse_command, hcons, if_neg hnl]
  have hparams : parse_command_params pyInt c rem = .error .valueErr := by
    simp only [parse_command_params, hu, hcv, if_pos h0]
    rw [convertAll_none pyInt _ tok htok hfail]
    simp
  simp only [parseCommandsF]
  rw [hreg, dispatch_skip H pyInt pre _ _ _ hskip]
  simp only [dispatchList, hpc, hparams]

/-- Witness for the amended C2 at `--include abc 2`. -/
theorem C2_converter_value_error_witness :
    parseCommandsF H0 pyIntDefault 1 [s "--include", s "abc", s "2"] hs0 8 []
      = (.exc .valueErr, []) :=
  C2_converter_value_error H0 pyIntDefault 0 8 [] (registry.take 18)
    (mkCmd (s "--include") none (some [s "FROM", s "TO"]) (-1) none true)
    (registry.drop 19) (by decide) (s "--include") [s "abc", s "2"] [s "abc", s "2"]
    hs0 (by decide) (by decide) (by decide) (by decide) (by decide) (by decide)
    (s "abc") (by decide) (by decide)

/-! ## Support for the path round-trip claim -/

/-- The character action of `replace("\\", "/")`. -/
def bsl (c : Char) : Char := if c = '\\' then '/' else c

/-- No two adjacent forward slashes (so `replace("//", "/")` is the
identity). -/
def noDS : Str → Bool
  | c :: d :: l => if c = '/' ∧ d = '/' then false else noDS (d :: l)
  | _ => true

/-- Everything this development needs about an ASCII letter and its
lowercase image, proved by enumerating the 52 letters. -/
theorem letter_facts (c : Char) (h : isAsciiLetter c = true) :
    isPySpace c = false ∧ c ≠ '/' ∧ c ≠ '\\' ∧ c ≠ '\n' ∧ c ≠ '\r' ∧ c ≠ ':' ∧
    isAsciiLetter (pyLowerChar c) = true ∧ pyLowerChar (pyLowerChar c) = pyLowerChar c := by
  have hb : (65 ≤ c.toNat ∧ c.toNat ≤ 90) ∨ (97 ≤ c.toNat ∧ c.toNat ≤ 122) := by
    simp only [isAsciiLetter, Bool.or_eq_true, Bool.and_eq_true, decide_eq_true_eq] at h
    rcases h with ⟨h1, h2⟩ | ⟨h1, h2⟩
    · right; rw [Char.le_def] at h1 h2; exact ⟨h1, h2⟩
    · left; rw [Char.le_def] at h1 h2; exact ⟨h1, h2⟩
  have hc : c = Char.ofNat c.toNat := (Char.ofNat_toNat c).symm
  rcases hb with ⟨h1, h2⟩ | ⟨h1, h2⟩ <;>
    · interval_cases hn : c.toNat <;> subst hc <;> decide

/-- The backslash normalisation acts trivially on everything this
development tracks about a character. -/
theorem bsl_facts (c : Char) :
    isPySpace (bsl c) = isPySpace c ∧ (bsl c = '\n' ↔ c = '\n') ∧
    (bsl c = '\r' ↔ c = '\r') ∧ bsl c ≠ '\\' := by
  by_cases hc : c = '\\'
  · subst hc; exact ⟨by decide, by decide, by decide, by decide⟩
  · rw [show bsl c = c from if_neg hc]
    exact ⟨rfl, Iff.rfl, Iff.rfl, hc⟩

/-- `str.replace` with a one-character pattern is a character map. -/
theorem pyReplaceGo_single (a b : Char) (fuel : Nat) (l : Str) (hf : l.length ≤ fuel) :
    pyReplaceGo [a] [b] fuel l = l.map fun c => if c = a then b else c := by
  induction fuel generalizing l with
  | zero =>
    cases l with
    | nil => rfl
    | cons c t => simp at hf
  | succ n ih =>
    cases l with
    | nil => rfl
    | cons c t =>
      rw [pyReplaceGo]
      by_cases hc : c = a
      · rw [if_pos ⟨by simp, by simp [isPre, hc]⟩]
        simp [hc, ih t (by simpa using hf)]
      · rw [if_neg fun hand => hc (Eq.symm (by simpa [isPre] using hand.2))]
        simp [hc, ih t (by simpa using hf)]

/-- `line.replace("\\", "/")` is the character map `bsl`. -/
theorem pyReplace_bs (l : Str) : pyReplace (s "\\") (s "/") l = l.map bsl := by
  have h1 : s "\\" = ['\\'] := rfl
  have h2 : s "/" = ['/'] := rfl
  rw [h1, h2, pyReplace, pyReplaceGo_single '\\' '/' _ l le_rfl]
  rfl

/-- `noDS` restricted to the tail. -/
theorem noDS_tail (c : Char) (l : Str) (h : noDS (c :: l) = true) : noDS l = true := by
  cases l with
  | nil => rfl
  | cons d t =>
    rw [noDS] at h
    split at h
    · exact absurd h (by simp)
    · exact h

/-- `noDS` forbids an adjacent slash pair at the head. -/
theorem noDS_head (c d : Char) (l : Str) (h : noDS (c :: d :: l) = true) :
    ¬(c = '/' ∧ d = '/') := by
  intro hcd
  rw [noDS, if_pos hcd] at h
  exact absurd h (by simp)

/-- A slash-free string has no double slash. -/
theorem noDS_no_slash (l : Str) (h : ∀ c ∈ l, c ≠ '/') : noDS l = true := by
  induction l with
  | nil => rfl
  | cons c t ih =>
    cases t with
    | nil => rfl
    | cons d t' =>
      rw [noDS, if_neg fun hcd => h c (List.mem_cons_self _ _) hcd.1]
      exact ih fun x hx => h x (List.mem_cons_of_mem _ hx)

/-- Concatenation preserves `noDS` when the seam is not a slash pair. -/
theorem noDS_append (a b : Str) (ha : noDS a = true) (hb : noDS b = true)
    (hj : ∀ x y, a.getLast? = some x → b.head? = some y → ¬(x = '/' ∧ y = '/')) :
    noDS (a ++ b) = true := by
  induction a with
  | nil => simpa using hb
  | cons x xs ih =>
    cases xs with
    | nil =>
      cases b with
      | nil => rfl
      | cons y b' =>
        simp only [List.cons_append, List.nil_append]
        rw [noDS, if_neg (hj x y rfl rfl)]
        exact hb
    | cons x2 xs' =>
      simp only [List.cons_append] at ih ⊢
      rw [noDS, if_neg (noDS_head x x2 xs' ha)]
      exact ih (noDS_tail x _ ha) fun p q hp hq =>
        hj p q (by rw [List.getLast?_cons_cons]; exact hp) hq

/-- `replace("//", "/")` is the identity on a `noDS` string. -/
theorem pyReplaceGo_ds (fuel : Nat) (l : Str) (hf : l.length ≤ fuel)
    (h : noDS l = true) : pyReplaceGo ['/', '/'] ['/'] fuel l = l := by
  induction fuel generalizing l with
  | zero =>
    cases l with
    | nil => rfl
    | cons c t => simp at hf
  | succ n ih =>
    cases l with
    | nil => rfl
    | cons c t =>
      rw [pyReplaceGo]
      rw [if_neg ?hcond]
      case hcond =>
        rintro ⟨-, hpre⟩
        cases t with
        | nil => simp [isPre] at hpre
        | cons d t' =>
          have hcd : c = '/' ∧ d = '/' := by
            simp only [isPre, Bool.and_eq_true, decide_eq_true_eq] at hpre
            exact ⟨hpre.1.symm, hpre.2.1.symm⟩
          exact noDS_head c d t' h hcd
      rw [ih t (by simpa using hf) (noDS_tail c t h)]

/-- `pyReplace` form of the previous lemma. -/
theorem pyReplace_ds_id (l : Str) (h : noDS l = true) :
    pyReplace (s "//") (s "/") l = l := by
  have h1 : s "//" = ['/', '/'] := rfl
  have h2 : s "/" = ['/'] := rfl
  rw [h1, h2, pyReplace, pyReplaceGo_ds l.length l le_rfl h]

/-- One-character prefix test in terms of `head?`. -/
theorem isPre_single (c : Char) (m : Str) : isPre [c] m = true ↔ m.head? = some c := by
  cases m with
  | nil => simp [isPre]
  | cons x xs => simp [isPre, eq_comm]

/-- `removesuffix("/")` is the identity when the string does not end in a
slash. -/
theorem cutSuf_slash_id (l : Str) (h : l.getLast? ≠ some '/') : cutSuf l (s "/") = l := by
  rw [cutSuf, if_neg]
  intro hs
  rw [isSuf, show (s "/").reverse = ['/'] from rfl] at hs
  have h2 := (isPre_single '/' l.reverse).mp hs
  rw [List.head?_reverse] at h2
  exact h h2

/-- `dropWhile` is the identity when the head is not accepted. -/
theorem dropWhile_id (p : Char → Bool) (l : Str)
    (h : ∀ c, l.head? = some c → p c = false) : l.dropWhile p = l := by
  cases l with
  | nil => rfl
  | cons c t => rw [List.dropWhile_cons, if_neg (by simp [h c rfl])]

/-- `str.strip()` is the identity when neither end is whitespace. -/
theorem pyStrip_id (l : Str)
    (h1 : ∀ c, l.head? = some c → isPySpace c = false)
    (h2 : ∀ c, l.getLast? = some c → isPySpace c = false) :
    pyStrip l = l := by
  rw [pyStrip, dropWhile_id _ _ h1, dropWhile_id, List.reverse_reverse]
  intro c hc
  rw [List.head?_reverse] at hc
  exact h2 c hc

/-- The splitter skips an ordinary (non-break) character. -/
theorem pySplitlinesGo_other (c : Char) (cs cur : Str) (h1 : c ≠ '\n') (h2 : c ≠ '\r') :
    pySplitlinesGo (c :: cs) cur = pySplitlinesGo cs (c :: cur) := by
  rw [pySplitlinesGo.eq_def]
  split <;> simp_all

/-- A break-free input produces the single accumulated line. -/
theorem pySplitlinesGo_no_breaks (l : Str) :
    ∀ cur : Str, (∀ c ∈ l, c ≠ '\n' ∧ c ≠ '\r') → (cur ≠ [] ∨ l ≠ []) →
    pySplitlinesGo l cur = [cur.reverse ++ l] := by
  induction l with
  | nil =>
    intro cur _ hne
    rcases hne with hc | hl
    · rw [pySplitlinesGo, if_neg hc]
      simp
    · exact absurd rfl hl
  | cons c t ih =>
    intro cur h _
    have hc := h c (List.mem_cons_self _ _)
    rw [pySplitlinesGo_other c t cur hc.1 hc.2,
      ih (c :: cur) (fun x hx => h x (List.mem_cons_of_mem _ hx)) (Or.inl (by simp))]
    simp

/-- `splitlines` of one break-free non-empty line. -/
theorem pySplitlines_single (l : Str) (hne : l ≠ [])
    (h : ∀ c ∈ l, c ≠ '\n' ∧ c ≠ '\r') : pySplitlines l = [l] := by
  cases l with
  | nil => exact absurd rfl hne
  | cons c t =>
    rw [show pySplitlines (c :: t) = pySplitlinesGo (c :: t) [] from rfl,
      pySplitlinesGo_no_breaks (c :: t) [] h (Or.inr (by simp))]
    rfl

/-- `takeWhile` stops exactly at the first rejected character. -/
theorem takeWhile_append_stop (p : Char → Bool) (a : Str) (y : Char) (b : Str)
    (ha : ∀ x ∈ a, p x = true) (hy : p y = false) :
    (a ++ y :: b).takeWhile p = a := by
  induction a with
  | nil => simp [List.takeWhile_cons, hy]
  | cons x xs ih =>
    rw [List.cons_append, List.takeWhile_cons, if_pos (ha x (List.mem_cons_self _ _)),
      ih fun z hz => ha z (List.mem_cons_of_mem _ hz)]

/-- `getLast?` of an append with a non-empty right part. -/
theorem getLast?_append_ne (a b : Str) (hb : b ≠ []) : (a ++ b).getLast? = b.getLast? := by
  rw [List.getLast?_append]
  cases hgb : b.getLast? with
  | some x => rfl
  | none => exact absurd (List.getLast?_eq_none_iff.mp hgb) hb

/-- `head?` of an append with a non-empty left part. -/
theorem head?_append_ne (a b : Str) (ha : a ≠ []) : (a ++ b).head? = a.head? := by
  rw [List.head?_append]
  cases hga : a.head? with
  | some x => rfl
  | none => exact absurd (List.head?_eq_none_iff.mp hga) ha

/-- `getLast?` skips a cons onto a non-empty list. -/
theorem getLast?_cons_ne (a : Char) (l : Str) (hl : l ≠ []) :
    (a :: l).getLast? = l.getLast? := by
  cases l with
  | nil => exact absurd rfl hl
  | cons x xs => exact List.getLast?_cons_cons

/-- Membership from `getLast?`. -/
theorem mem_of_getLast?_eq (l : Str) (a : Char) (h : l.getLast? = some a) : a ∈ l := by
  rcases List.mem_getLast?_eq_getLast (Option.mem_def.mpr h) with ⟨hne, heq⟩
  rw [heq]
  exact List.getLast_mem hne

/-- `joinNL` of a single line. -/
theorem joinNL_singleton (x : Str) : joinNL [x] = x := by
  simp [joinNL, List.intercalate]

/-- `isPre` accepts its own extension. -/
theorem isPre_append_self (p x : Str) : isPre p (p ++ x) = true := by
  induction p with
  | nil => rfl
  | cons c t ih => simp [isPre, ih]

/-- `win_path_re` on a well-formed slash-normalised drive path. -/
theorem winPathMatch_drive (drive rest : Str) (hd : drive ≠ [])
    (hdl : ∀ c ∈ drive, isAsciiLetter c = true) :
    winPathMatch (drive ++ ':' :: '/' :: rest) = some (drive, rest) := by
  unfold winPathMatch
  simp only [takeWhile_append_stop isAsciiLetter drive ':' ('/' :: rest) hdl (by decide),
    List.drop_left, if_neg hd]
  rw [if_pos ⟨trivial, Or.inr trivial⟩]

/-- The built `/cygdrive` line, re-associated to the right. -/
theorem cyg_line_assoc (ld rest : Str) :
    s "/cygdrive/" ++ ld ++ s "/" ++ rest = s "/cygdrive/" ++ (ld ++ '/' :: rest) := by
  rw [show s "/" = ['/'] from rfl, List.append_assoc, List.append_assoc]
  rfl

/-- `cygwin_path_re` on the constructed `/cygdrive` path. -/
theorem cygPathMatch_built (ld rest : Str) (hld : ld ≠ [])
    (hl : ∀ c ∈ ld, isAsciiLetter c = true) :
    cygPathMatch (s "/cygdrive/" ++ ld ++ s "/" ++ rest) = some (ld, rest) := by
  rw [cyg_line_assoc]
  unfold cygPathMatch
  rw [if_pos (isPre_append_self (s "/cygdrive/") _)]
  have hdrop : (s "/cygdrive/" ++ (ld ++ '/' :: rest)).drop 10 = ld ++ '/' :: rest := by
    rw [show (10 : Nat) = (s "/cygdrive/").length from rfl]
    exact List.drop_left _ _
  simp only [hdrop,
    takeWhile_append_stop isAsciiLetter ld '/' rest hl (by decide),
    List.drop_left, if_neg hld]
  rw [if_pos trivial]

/-- Claim C6, counterexample to the claim as stated: under the simulated
Cygwin environment the round trip on `C:\Users\x` produces `c:/Users/x`
(forward slashes, lowercased drive), which is neither the original path
nor the `C:/Users/x` of the spec's own example. -/
theorem C6_roundtrip_counterexample :
    (platform_path cygEnv (env_path cygEnv ⟨s "C:\\Users\\x", true⟩).2).2.current_output
      = s "c:/Users/x"
    ∧ s "c:/Users/x" ≠ s "C:\\Users\\x"
    ∧ s "c:/Users/x" ≠ s "C:/Users/x" :=
  ⟨by decide, by decide, by decide⟩

/-- Claim C6 as amended: under Cygwin, `--env-path` then `--platform-path`
on a native absolute drive path `drive:\rest` yields the slash-normalised,
drive-lowercased form `drive.lower():/rest-with-forward-slashes`, for every
well-formed path (non-empty all-letter drive; tail — after backslash
normalisation `bsl` — non-empty, with no doubled slash, not starting or
ending with a slash, not ending in whitespace, and free of line breaks). -/
theorem C6_env_platform_roundtrip (drive rest0 : Str) (b : Bool)
    (hd : drive ≠ []) (hdl : ∀ c ∈ drive, isAsciiLetter c = true)
    (hr0 : rest0.map bsl ≠ [])
    (hrds : noDS (rest0.map bsl) = true)
    (hrh : (rest0.map bsl).head? ≠ some '/')
    (hrl : (rest0.map bsl).getLast? ≠ some '/')
    (hrw : ∀ c, (rest0.map bsl).getLast? = some c → isPySpace c = false)
    (hrb : ∀ c ∈ rest0.map bsl, c ≠ '\n' ∧ c ≠ '\r') :
    platform_path cygEnv (env_path cygEnv ⟨drive ++ ':' :: '\\' :: rest0, b⟩).2
      = (0, ⟨strLower drive ++ ':' :: '/' :: rest0.map bsl, b⟩) := by
  set rest := rest0.map bsl with hrest
  have hr0' : rest0 ≠ [] := by
    intro h
    exact hr0 (by rw [hrest, h]; rfl)
  have hrb0 : ∀ c ∈ rest0, c ≠ '\n' ∧ c ≠ '\r' := by
    intro c hc
    have hb := hrb (bsl c) (hrest ▸ List.mem_map_of_mem bsl hc)
    exact ⟨fun h => hb.1 ((bsl_facts c).2.1.mpr h),
      fun h => hb.2 ((bsl_facts c).2.2.1.mpr h)⟩
  have hrw0 : ∀ c, rest0.getLast? = some c → isPySpace c = false := by
    intro c hc
    have hg : rest.getLast? = some (bsl c) := by
      rw [hrest, List.getLast?_map, hc]; rfl
    exact ((bsl_facts c).1).symm.trans (hrw (bsl c) hg)
  -- the raw input line
  have hline_ne : drive ++ ':' :: '\\' :: rest0 ≠ [] := by
    cases drive <;> simp
  have hline_breaks : ∀ c ∈ drive ++ ':' :: '\\' :: rest0, c ≠ '\n' ∧ c ≠ '\r' := by
    intro c hc
    rcases List.mem_append.mp hc with hc | hc
    · have hf := letter_facts c (hdl c hc)
      exact ⟨hf.2.2.2.1, hf.2.2.2.2.1⟩
    · simp only [List.mem_cons] at hc
      rcases hc with rfl | rfl | hc
      · exact ⟨by decide, by decide⟩
      · exact ⟨by decide, by decide⟩
      · exact hrb0 c hc
  have hsplit1 : pySplitlines (drive ++ ':' :: '\\' :: rest0)
      = [drive ++ ':' :: '\\' :: rest0] := pySplitlines_single _ hline_ne hline_breaks
  have hstrip1 : pyStrip (drive ++ ':' :: '\\' :: rest0) = drive ++ ':' :: '\\' :: rest0 := by
    apply pyStrip_id
    · intro c hc
      cases drive with
      | nil => exact absurd rfl hd
      | cons d0 dt =>
        simp only [List.cons_append, List.head?_cons, Option.some.injEq] at hc
        subst hc
        exact (letter_facts d0 (hdl d0 (List.mem_cons_self _ _))).1
    · intro c hc
      rw [getLast?_append_ne _ _ (by simp), getLast?_cons_ne _ _ (by simp),
        getLast?_cons_ne _ _ hr0'] at hc
      exact hrw0 c hc
  have hmap1 : pyReplace (s "\\") (s "/") (drive ++ ':' :: '\\' :: rest0)
      = drive ++ ':' :: '/' :: rest := by
    have h1 : List.map bsl drive = drive :=
      (List.map_congr_left fun c hc =>
        if_neg (letter_facts c (hdl c hc)).2.2.1).trans (List.map_id drive)
    rw [pyReplace_bs, List.map_append, h1]
    rfl
  -- the lowercased drive
  have hBne : strLower drive ≠ [] := by
    cases drive with
    | nil => exact absurd rfl hd
    | cons d0 dt => simp [strLower]
  have hBlet : ∀ c ∈ strLower drive, isAsciiLetter c = true := by
    intro c hc
    rcases List.mem_map.mp hc with ⟨c0, hc0, rfl⟩
    exact (letter_facts c0 (hdl c0 hc0)).2.2.2.2.2.2.1
  have hBnoSlash : ∀ c ∈ strLower drive, c ≠ '/' := fun c hc =>
    (letter_facts c (hBlet c hc)).2.1
  -- no doubled slash in the built line
  have hno1 : noDS ('/' :: rest) = true := by
    cases hrt : rest with
    | nil => rfl
    | cons r rt =>
      rw [noDS, if_neg]
      · rw [← hrt]; exact hrds
      · rintro ⟨-, hr⟩
        exact hrh (by rw [hrt]; simp [hr])
  have hno2 : noDS (strLower drive ++ '/' :: rest) = true := by
    apply noDS_append _ _ (noDS_no_slash _ hBnoSlash) hno1
    intro x y hx _
    rintro ⟨hx', -⟩
    exact hBnoSlash x (mem_of_getLast?_eq _ _ hx) hx'
  have hno3 : noDS (s "/cygdrive/" ++ (strLower drive ++ '/' :: rest)) = true := by
    apply noDS_append _ _ (by decide) hno2
    intro x y _ hy
    rintro ⟨-, hy'⟩
    rw [head?_append_ne _ _ hBne] at hy
    exact hBnoSlash y (List.mem_of_mem_head? (Option.mem_def.mpr hy)) hy'
  have hnoDS : noDS (s "/cygdrive/" ++ strLower drive ++ s "/" ++ rest) = true := by
    rw [cyg_line_assoc]; exact hno3
  have hl2last : (s "/cygdrive/" ++ strLower drive ++ s "/" ++ rest).getLast?
      = rest.getLast? := by
    rw [cyg_line_assoc, getLast?_append_ne _ _ (by simp), getLast?_append_ne _ _ (by simp),
      getLast?_cons_ne _ _ (by rw [hrest] at hr0 ⊢; exact hr0)]
  have henv : envPathLine cygEnv (drive ++ ':' :: '\\' :: rest0)
      = some (s "/cygdrive/" ++ strLower drive ++ s "/" ++ rest) := by
    unfold envPathLine
    rw [hstrip1, hmap1]
    simp only [winPathMatch_drive drive rest hd hdl, cygEnv, if_true]
    rw [pyReplace_ds_id _ hnoDS, cutSuf_slash_id _ (by rw [hl2last]; exact hrl)]
  have henvfull : env_path cygEnv ⟨drive ++ ':' :: '\\' :: rest0, b⟩
      = (0, ⟨s "/cygdrive/" ++ strLower drive ++ s "/" ++ rest, b⟩) := by
    unfold env_path
    rw [if_pos (by decide)]
    show (0, PS.mk (joinNL ((pySplitlines (drive ++ ':' :: '\\' :: rest0)).filterMap
      (envPathLine cygEnv))) b) = _
    rw [hsplit1]
    simp only [List.filterMap_cons, henv, List.filterMap_nil]
    rw [joinNL_singleton]
  -- the platform_path pass
  have hA10 : s "/cygdrive/" ≠ ([] : Str) := by decide
  have hl2ne : s "/cygdrive/" ++ strLower drive ++ s "/" ++ rest ≠ [] := by
    rw [cyg_line_assoc]
    intro h
    exact hA10 (List.append_eq_nil.mp h).1
  have hl2breaks : ∀ c ∈ s "/cygdrive/" ++ strLower drive ++ s "/" ++ rest,
      c ≠ '\n' ∧ c ≠ '\r' := by
    rw [cyg_line_assoc]
    have hAok : ∀ c ∈ s "/cygdrive/", c ≠ '\n' ∧ c ≠ '\r' := by decide
    intro c hc
    rcases List.mem_append.mp hc with hc | hc
    · exact hAok c hc
    · rcases List.mem_append.mp hc with hc | hc
      · have hf := letter_facts c (hBlet c hc)
        exact ⟨hf.2.2.2.1, hf.2.2.2.2.1⟩
      · simp only [List.mem_cons] at hc
        rcases hc with rfl | hc
        · exact ⟨by decide, by decide⟩
        · exact hrb c hc
  have hsplit2 : pySplitlines (s "/cygdrive/" ++ strLower drive ++ s "/" ++ rest)
      = [s "/cygdrive/" ++ strLower drive ++ s "/" ++ rest] :=
    pySplitlines_single _ hl2ne hl2breaks
  have hstrip2 : pyStrip (s "/cygdrive/" ++ strLower drive ++ s "/" ++ rest)
      = s "/cygdrive/" ++ strLower drive ++ s "/" ++ rest := by
    apply pyStrip_id
    · intro c hc
      rw [cyg_line_assoc, head?_append_ne _ _ hA10] at hc
      have : c = '/' := by
        rw [show (s "/cygdrive/").head? = some '/' from rfl] at hc
        exact (Option.some.injEq _ _ ▸ hc).symm
      subst this
      decide
    · intro c hc
      rw [hl2last] at hc
      exact hrw c hc
  have hmap2 : pyReplace (s "\\") (s "/") (s "/cygdrive/" ++ strLower drive ++ s "/" ++ rest)
      = s "/cygdrive/" ++ strLower drive ++ s "/" ++ rest := by
    rw [pyReplace_bs]
    refine (List.map_congr_left ?_).trans (List.map_id _)
    rw [cyg_line_assoc]
    have hAbs : ∀ c ∈ s "/cygdrive/", ¬ c = '\\' := by decide
    intro c hc
    show bsl c = c
    apply if_neg
    rcases List.mem_append.mp hc with hc | hc
    · exact hAbs c hc
    · rcases List.mem_append.mp hc with hc | hc
      · exact (letter_facts c (hBlet c hc)).2.2.1
      · simp only [List.mem_cons] at hc
        rcases hc with rfl | hc
        · decide
        · rw [hrest] at hc
          rcases List.mem_map.mp hc with ⟨c0, _, rfl⟩
          exact (bsl_facts c0).2.2.2
  have hidem : strLower (strLower drive) = strLower drive := by
    rw [strLower, strLower, List.map_map]
    exact List.map_congr_left fun c hc =>
      (letter_facts c (hdl c hc)).2.2.2.2.2.2.2
  have hplatline : platformPathLine cygEnv (s "/cygdrive/" ++ strLower drive ++ s "/" ++ rest)
      = strLower drive ++ ':' :: '/' :: rest := by
    unfold platformPathLine
    rw [hstrip2, hmap2]
    show (match cygPathMatch (s "/cygdrive/" ++ strLower drive ++ s "/" ++ rest) with
      | some (d, p) => strLower d ++ s ":/" ++ p
      | none => s "/cygdrive/" ++ strLower drive ++ s "/" ++ rest) = _
    rw [cygPathMatch_built _ _ hBne hBlet]
    show strLower (strLower drive) ++ s ":/" ++ rest = _
    rw [hidem, show s ":/" = [':', '/'] from rfl, List.append_assoc]
    rfl
  rw [henvfull]
  show platform_path cygEnv ⟨s "/cygdrive/" ++ strLower drive ++ s "/" ++ rest, b⟩ = _
  unfold platform_path
  rw [if_pos (by decide)]
  show (0, PS.mk (joinNL ((pySplitlines (s "/cygdrive/" ++ strLower drive ++ s "/" ++ rest)).map
    (platformPathLine cygEnv))) b) = _
  rw [hsplit2]
  simp only [List.map_cons, List.map_nil, hplatline]
  rw [joinNL_singleton]

/-- Witness for the amended C6 at `C:\Users\x`, lowering to `c:/Users/x`. -/
theorem C6_env_platform_roundtrip_witness :
    platform_path cygEnv (env_path cygEnv ⟨s "C" ++ ':' :: '\\' :: s "Users\\x", true⟩).2
      = (0, ⟨strLower (s "C") ++ ':' :: '/' :: (s "Users\\x").map bsl, true⟩) :=
  C6_env_platform_roundtrip (s "C") (s "Users\\x") true (by decide) (by decide)
    (by decide) (by decide) (by decide) (by decide) (by decide) (by decide)
